import Mathlib

/-!
Verification of the F3Package page-digestion engine (`F3Page.py`, `F3Reference.py`).

The Python source is shallowly embedded: pure string manipulation is modelled on
`List Char` with structural recursion; Python exceptions (`xml` parse errors,
`str.decode` failures, `TypeError` from concatenating `None` with a string,
`IndexError` from indexing an empty string) are modelled with `Except PyErr`;
the filesystem inputs of `DigestPage` are modelled as the decoded contents of the
two input files, `Option`-valued to model a missing file.  External collaborators
from `HelpersPackage` (`WikiUrlnameToWikiPagename`, `WikiRedirectToPagename`) are
parameters, and the regular-expression engine behaviour for each concrete pattern
appearing in the source is implemented directly, following the pattern's meaning
as described in the specification (leftmost scan, lazy capture up to the closing
delimiter, `.` not matching a newline, `\s` also matching a newline).
Python's `str.upper`/`str.lower` are modelled on ASCII letters.
-/

namespace F3

/-- A Python exception escaping an operation. -/
inductive PyErr where
  /-- Exception `xml.etree.ElementTree.ParseError` from `ET.parse`. -/
  | parseError
  /-- Exception `UnicodeDecodeError` from `bytes.decode("utf8")`. -/
  | decodeError
  /-- Exception `TypeError`, e.g. concatenating `None` with a `str`. -/
  | typeError
  /-- Exception `IndexError`, e.g. `""[0]`. -/
  | indexError
deriving DecidableEq, Repr

/-- Python `\s` on ASCII: space, tab, newline, carriage return, vertical tab, form feed. -/
def isPySpace (c : Char) : Bool :=
  c = ' ' || c = '\t' || c = '\n' || c = '\r' || c = '\x0b' || c = '\x0c'

/-- Python `str.upper` on a single character, restricted to ASCII letters. -/
def upperChar (c : Char) : Char :=
  if 97 ≤ c.toNat ∧ c.toNat ≤ 122 then Char.ofNat (c.toNat - 32) else c

/-- Python `str.lower` on a single character, restricted to ASCII letters. -/
def lowerChar (c : Char) : Char :=
  if 65 ≤ c.toNat ∧ c.toNat ≤ 90 then Char.ofNat (c.toNat + 32) else c

/-- Model of `v.replace("_", " ")` acting on one character. -/
def underscoreSpace (c : Char) : Char :=
  if c = '_' then ' ' else c

/-- The fixed lookup table at the end of `normalize` (F3Page.py lines 70-82). -/
def fixTable (s : String) : String :=
  if s = "Us" then "US"
  else if s = "Uk" then "UK"
  else if s = "Nz" then "NZ"
  else if s = "Apa" then "APA"
  else if s = "Ia" then "IA"
  else if s = "First fandom" then "First Fandom"
  else s

/-- Function `normalize` (F3Page.py lines 64-82).  A one-character tag is uppercased;
otherwise `val[0].upper()+val[1:]` (which raises `IndexError` on the empty
string, modelled by `none`), underscores rewritten to spaces, then the fixed
lookup table. -/
def normalize (val : String) : Option String :=
  match val.toList with
  | [] => none
  | [c] => some (String.mk [upperChar c])
  | c :: cs => some (fixTable (String.mk ((upperChar c :: cs).map underscoreSpace)))

/-- Class `TagSet` (F3Page.py lines 84-125): a set of strings, optionally normalizing.
The Python `set` is modelled as a duplicate-free list; the claims below never
depend on iteration order. -/
structure TagSet where
  set : List String
  normalized : Bool
deriving DecidableEq, Repr

/-- Insertion into the model of a Python `set`. -/
def listInsert (l : List String) (v : String) : List String :=
  if v ∈ l then l else l ++ [v]

/-- Function `normalize` applied to every element, raising (as the Python loop in
`TagSet.add` would) on the first element on which `normalize` raises. -/
def normalizeAll : List String → Except PyErr (List String)
  | [] => .ok []
  | v :: rest =>
    match normalize v with
    | none => .error .indexError
    | some n =>
      match normalizeAll rest with
      | .error e => .error e
      | .ok ns => .ok (n :: ns)

/-- Method `TagSet.add` (F3Page.py lines 107-119) for a single string argument. -/
def TagSet.addOne (ts : TagSet) (v : String) : Except PyErr TagSet :=
  if ts.normalized then
    match normalize v with
    | none => .error .indexError
    | some n => .ok { ts with set := listInsert ts.set n }
  else .ok { ts with set := listInsert ts.set v }

/-- Method `TagSet.add` (F3Page.py lines 107-119) for a list argument. -/
def TagSet.addMany (ts : TagSet) (vals : List String) : Except PyErr TagSet :=
  if ts.normalized then
    match normalizeAll vals with
    | .error e => .error e
    | .ok ns => .ok { ts with set := ns.foldl listInsert ts.set }
  else .ok { ts with set := vals.foldl listInsert ts.set }

/-- Method `TagSet.__contains__` (F3Page.py lines 121-125): normalize the probe first
when the set is normalized (`normalize` may raise `IndexError` on `""`). -/
def TagSet.containsE (ts : TagSet) (v : String) : Except PyErr Bool :=
  if ts.normalized then
    match normalize v with
    | none => .error .indexError
    | some n => .ok (decide (n ∈ ts.set))
  else .ok (decide (v ∈ ts.set))

/-! ### String-scanning primitives

The concrete regular expressions in `DigestPage` are implemented directly as
`List Char` scanners.  All recursion is structural (a fuel argument bounded by
the input length where needed), so every definition evaluates by kernel
reduction. -/

/-- Case-insensitive literal-prefix test: if mapping `lowerChar` over the first
`pat.length` characters of `l` gives `pat` (given lowercase), return the rest. -/
def ciStarts (pat : List Char) (l : List Char) : Option (List Char) :=
  if (l.take pat.length).map lowerChar = pat then some (l.drop pat.length) else none

/-- Case-sensitive literal-prefix test. -/
def csStarts (pat : List Char) (l : List Char) : Option (List Char) :=
  if l.take pat.length = pat then some (l.drop pat.length) else none

/-- Split at the first occurrence of the literal `pat`: returns the segment
before it and the text after it. -/
def splitAtFirst (pat : List Char) : List Char → Option (List Char × List Char)
  | [] => if pat = [] then some ([], []) else none
  | c :: cs =>
    if (c :: cs).take pat.length = pat then some ([], (c :: cs).drop pat.length)
    else
      match splitAtFirst pat cs with
      | none => none
      | some (seg, rest) => some (c :: seg, rest)

/-- Split at the first occurrence of `pat`, comparing case-insensitively. -/
def splitAtFirstCI (pat : List Char) : List Char → Option (List Char × List Char)
  | [] => if pat = [] then some ([], []) else none
  | c :: cs =>
    if ((c :: cs).take pat.length).map lowerChar = pat then some ([], (c :: cs).drop pat.length)
    else
      match splitAtFirstCI pat cs with
      | none => none
      | some (seg, rest) => some (c :: seg, rest)

/-- Python `str.strip` (both ends) over the `\s` character class. -/
def pyTrim (l : List Char) : List Char :=
  ((l.dropWhile isPySpace).reverse.dropWhile isPySpace).reverse

/-- Right-hand half of `pyTrim`, for trailing `\s*` before a closing delimiter. -/
def pyTrimRight (l : List Char) : List Char :=
  (l.reverse.dropWhile isPySpace).reverse

/-- Python `str.split(sep)` for a non-empty literal separator (fuel-driven). -/
def splitOnAux (sep : List Char) : Nat → List Char → List Char → List (List Char)
  | _, acc, [] => [acc.reverse]
  | 0, acc, l => [acc.reverse ++ l]
  | fuel+1, acc, c :: cs =>
    if (c :: cs).take sep.length = sep then
      acc.reverse :: splitOnAux sep fuel [] ((c :: cs).drop sep.length)
    else
      splitOnAux sep fuel (c :: acc) cs

/-- Python `str.split(sep)` on strings. -/
def pySplit (sep : List Char) (l : List Char) : List (List Char) :=
  splitOnAux sep l.length [] l

/-- One pass of `re`-style scanning: at each position try `m`; on a match emit
the capture and continue after the matched span, otherwise keep the character
and move on.  Returns the captures and the text with all matches removed,
modelling `HelpersPackage.SearchAndReplace(pattern, text, "")`. -/
def scanAux {α : Type} (m : List Char → Option (α × List Char)) :
    Nat → List Char → List α × List Char
  | _, [] => ([], [])
  | 0, l => ([], l)
  | fuel+1, c :: cs =>
    match m (c :: cs) with
    | some (a, rest) =>
      let r := scanAux m fuel rest
      (a :: r.1, r.2)
    | none =>
      let r := scanAux m fuel cs
      (r.1, c :: r.2)

/-! ### Data model -/

/-- Class `F3Reference` (F3Reference.py): a dataclass with four string fields and
field-tuple equality (the generated `__eq__`, used via the `set` in
`DigestPage`). -/
structure F3Reference where
  LinkWikiName : String := ""
  LinkDisplayText : String := ""
  ParentPageName : String := ""
  FanacURL : String := ""
deriving DecidableEq, Repr

/-- Class `F3Table` (F3Page.py lines 15-59): optional header list, optional row list
(`None` until the first `AppendRow`), and an unused type string. -/
structure F3Table where
  Headers : Option (List String) := none
  Rows : Option (List (List String)) := none
  Ftype : Option String := none
deriving DecidableEq, Repr

/-- Method `F3Table.AppendRow` (F3Page.py lines 45-48). -/
def F3Table.AppendRow (t : F3Table) (row : List String) : F3Table :=
  { t with Rows := some ((t.Rows.getD []) ++ [row]) }

/-- Class `F3Page` (F3Page.py lines 129-347), as initialised by `__init__`;
`Isredirectpage` is the stray attribute assigned at line 392 (distinct from the
read-only property `IsRedirectpage`). `Table` is a list of `Option F3Table`
because `DigestPage` can append Python `None` to it (line 478). -/
structure F3Page where
  WikiFilename : Option String := none
  DisplayTitle : Option String := none
  Name : Option String := none
  Redirect : Option String := none
  Tags : TagSet := { set := [], normalized := true }
  Rawtags : TagSet := { set := [], normalized := false }
  OutgoingReferences : Option (List F3Reference) := none
  WikiUrlname : Option String := none
  NumRevisions : Option Int := none
  Pageid : Option Int := none
  Revid : Option Int := none
  Edittime : Option String := none
  Permalink : Option String := none
  Timestamp : Option String := none
  User : Option String := none
  WindowsFilename : Option String := none
  Table : List (Option F3Table) := []
  Source : Option String := none
  Isredirectpage : Option (Option String) := none
deriving DecidableEq, Repr

/-- One child element of the parsed descriptor's root: its tag and text
(`child.text` is `None` for an empty element). -/
structure XmlChild where
  tag : String
  text : Option String
deriving DecidableEq, Repr

/-- The two input files of one `DigestPage` call, after the operating-system
and decoding layers: `none` models a missing file (`os.path.isfile` false);
`Except.error` models an exception raised while parsing/decoding the present
file; `Except.ok` carries the parsed descriptor children resp. the decoded
source text. -/
structure PageFiles where
  txt : Option (Except PyErr String)
  xml : Option (Except PyErr (List XmlChild))

/-- The external `HelpersPackage` name canonicalizers consumed by `DigestPage`
(specified collaborators, not implemented in this repository). -/
structure Collab where
  WikiUrlnameToWikiPagename : String → String
  WikiRedirectToPagename : String → String

/-- The identity collaborator, used for concrete evaluations. -/
def cid : Collab := { WikiUrlnameToWikiPagename := fun s => s, WikiRedirectToPagename := fun s => s }

/-! ### Descriptor-field processing -/

/-- Helper `HelpersPackage.IsInt`, modelled from the spec: the setter guard for the
numeric descriptor fields. -/
def IsInt (s : String) : Bool := s.toInt?.isSome

/-- The `NumRevisions`/`Pageid`/`Revid` setter body (F3Page.py lines 250-291):
a string is parsed if it is an integer and otherwise only logged; `None` resets
the field. -/
def setIntField (v : Option String) (old : Option Int) : Option Int :=
  match v with
  | none => none
  | some s =>
    match s.toInt? with
    | some n => some n
    | none => old

/-- Model of `re.findall("Category\(\x27Category:(.+?)\x27\)", text)` (F3Page.py line
406): case-sensitive scan, lazy capture up to the first `\x27)`, `.` not
matching a newline. -/
def matchDescCatAt (l : List Char) : Option (String × List Char) :=
  match csStarts "Category(\x27Category:".toList l with
  | none => none
  | some rest =>
    match splitAtFirst "\x27)".toList rest with
    | none => none
    | some (seg, after) =>
      if seg.isEmpty || seg.contains '\n' then none else some (String.mk seg, after)

/-- All descriptor-category captures of the `categories` descriptor field. -/
def findDescriptorCats (s : String) : List String :=
  (scanAux matchDescCatAt s.toList.length s.toList).1

/-- Descriptor tag test `title` (F3Page.py line 384). -/
def chTitle (ch : XmlChild) (fp : F3Page) : F3Page :=
  if ch.tag = "title" then { fp with Name := ch.text } else fp

/-- Descriptor tag test `filename` (F3Page.py line 386). -/
def chFilename (ch : XmlChild) (fp : F3Page) : F3Page :=
  if ch.tag = "filename" then { fp with WikiFilename := ch.text } else fp

/-- Descriptor tag test `urlname` (F3Page.py line 388). -/
def chUrlname (ch : XmlChild) (fp : F3Page) : F3Page :=
  if ch.tag = "urlname" then { fp with WikiUrlname := ch.text } else fp

/-- Descriptor tag test `isredirectpage` (F3Page.py line 390). -/
def chIsredirectpage (ch : XmlChild) (fp : F3Page) : F3Page :=
  if ch.tag = "isredirectpage" then { fp with Isredirectpage := some ch.text } else fp

/-- Descriptor tag test `numrevisions` (F3Page.py line 393). -/
def chNumrevisions (ch : XmlChild) (fp : F3Page) : F3Page :=
  if ch.tag = "numrevisions" then { fp with NumRevisions := setIntField ch.text fp.NumRevisions } else fp

/-- Descriptor tag test `pageid` (F3Page.py line 395). -/
def chPageid (ch : XmlChild) (fp : F3Page) : F3Page :=
  if ch.tag = "pageid" then { fp with Pageid := setIntField ch.text fp.Pageid } else fp

/-- Descriptor tag test `revid` (F3Page.py line 397). -/
def chRevid (ch : XmlChild) (fp : F3Page) : F3Page :=
  if ch.tag = "revid" then { fp with Revid := setIntField ch.text fp.Revid } else fp

/-- Descriptor tag test `editTime`/`edittime` (F3Page.py line 399). -/
def chEdittime (ch : XmlChild) (fp : F3Page) : F3Page :=
  if ch.tag = "editTime" ∨ ch.tag = "edittime" then { fp with Edittime := ch.text } else fp

/-- Descriptor tag test `permalink` (F3Page.py line 401). -/
def chPermalink (ch : XmlChild) (fp : F3Page) : F3Page :=
  if ch.tag = "permalink" then { fp with Permalink := ch.text } else fp

/-- Descriptor tag test `categories` (F3Page.py lines 404-406): the only
fallible step, through `TagSet.add`. -/
def chCategories (ch : XmlChild) (fp : F3Page) : Except PyErr F3Page :=
  if ch.tag = "categories" then
    match ch.text with
    | none => .ok fp
    | some t =>
      if t.length > 0 then
        match fp.Tags.addMany (findDescriptorCats t) with
        | .error e => .error e
        | .ok tags => .ok { fp with Tags := tags }
      else .ok fp
  else .ok fp

/-- Descriptor tag test `timestamp` (F3Page.py line 408). -/
def chTimestamp (ch : XmlChild) (fp : F3Page) : F3Page :=
  if ch.tag = "timestamp" then { fp with Timestamp := ch.text } else fp

/-- Descriptor tag test `user` (F3Page.py line 410). -/
def chUser (ch : XmlChild) (fp : F3Page) : F3Page :=
  if ch.tag = "user" then { fp with User := ch.text } else fp

/-- Processing of one descriptor child element (F3Page.py lines 383-411): the
sequence of independent tag tests in source order. -/
def applyChild (fp : F3Page) (ch : XmlChild) : Except PyErr F3Page :=
  match chCategories ch (chPermalink ch (chEdittime ch (chRevid ch (chPageid ch
      (chNumrevisions ch (chIsredirectpage ch (chUrlname ch (chFilename ch (chTitle ch fp))))))))) with
  | .error e => .error e
  | .ok fp => .ok (chUser ch (chTimestamp ch fp))

/-- The `for child in root` loop (F3Page.py lines 383-411). -/
def applyChildren : List XmlChild → F3Page → Except PyErr F3Page
  | [], fp => .ok fp
  | ch :: rest, fp =>
    match applyChild fp ch with
    | .error e => .error e
    | .ok fp => applyChildren rest fp

/-! ### The markup passes -/

/-- Model of `SearchAndReplace("^\x7b\x7bdisplaytitle:\s*(.+?)\x7d\x7d", source, "",
caseinsensitive=True)` (F3Page.py line 423): anchored at the start of the
source, lazy capture up to the first `\x7d\x7d`. -/
def stripDisplaytitle (s : String) : Option String × String :=
  match ciStarts "\x7b\x7bdisplaytitle:".toList s.toList with
  | none => (none, s)
  | some rest =>
    match splitAtFirst "\x7d\x7d".toList (rest.dropWhile isPySpace) with
    | none => (none, s)
    | some (seg, after) =>
      if seg.isEmpty || seg.contains '\n' then (none, s)
      else (some (String.mk seg), String.mk after)

/-- Model of `SearchAndReplace("^#redirect\s*\[\[(.+?)\]\]", source, "",
caseinsensitive=True)` (F3Page.py line 431). -/
def stripRedirect (s : String) : Option String × String :=
  match ciStarts "#redirect".toList s.toList with
  | none => (none, s)
  | some rest =>
    match csStarts "[[".toList (rest.dropWhile isPySpace) with
    | none => (none, s)
    | some rest2 =>
      match splitAtFirst "]]".toList rest2 with
      | none => (none, s)
      | some (seg, after) =>
        if seg.isEmpty || seg.contains '\n' then (none, s)
        else (some (String.mk seg), String.mk after)

/-- One attempted match of `\[\[category:\s*(.+?)\s*\]\]` (case-insensitive)
at the current position (F3Page.py line 437): lazy capture up to the first
`]]`, surrounding whitespace absorbed by the `\s*`s, capture non-empty and
newline-free. -/
def matchCategoryAt (l : List Char) : Option (String × List Char) :=
  match ciStarts "[[category:".toList l with
  | none => none
  | some rest =>
    match splitAtFirst "]]".toList (rest.dropWhile isPySpace) with
    | none => none
    | some (seg, after) =>
      let cap := pyTrimRight seg
      if cap.isEmpty || cap.contains '\n' then none else some (String.mk cap, after)

/-- The category pass: all matches, and the source with them removed. -/
def stripCategories (s : String) : List String × String :=
  let r := scanAux matchCategoryAt s.toList.length s.toList
  (r.1, String.mk r.2)

/-- One attempted match of `\[\[html\]\].*?\[\[/html\]\]` (case-insensitive)
at the current position (F3Page.py line 453).  Modelled from the spec: the
block spans newlines (§4.5). -/
def matchHtmlAt (l : List Char) : Option (Unit × List Char) :=
  match ciStarts "[[html]]".toList l with
  | none => none
  | some rest =>
    match splitAtFirstCI "[[/html]]".toList rest with
    | none => none
    | some (_, after) => some ((), after)

/-- The HTML-passthrough stripping pass (matches discarded). -/
def stripHtml (s : String) : String :=
  String.mk (scanAux matchHtmlAt s.toList.length s.toList).2

/-- Model of `f[:f.index("|")]` applied when `"|" in f` (F3Page.py lines 441-442). -/
def stripSortKey (f : String) : String :=
  String.mk ((pySplit "|".toList f.toList).headD f.toList)

/-- The diagnostic loop body for one found category (F3Page.py lines 439-444):
strip the sort key, test membership in the metadata tags (this can raise
`IndexError` inside `normalize` when the stripped tag is empty), and on a miss
build the log message `"In page '"+fp.Name+...` (which raises `TypeError` when
no `title` descriptor field was present, because `fp.Name` is `None`). -/
def categoryCheck (fp : F3Page) (f0 : String) : Except PyErr Unit :=
  match fp.Tags.containsE (stripSortKey f0) with
  | .error e => .error e
  | .ok mem =>
    if mem then .ok ()
    else
      match fp.Name with
      | none => .error .typeError
      | some _ => .ok ()

/-- The diagnostic loop over all found categories. -/
def categoryChecks (fp : F3Page) : List String → Except PyErr Unit
  | [] => .ok ()
  | f :: rest =>
    match categoryCheck fp f with
    | .error e => .error e
    | .ok _ => categoryChecks fp rest

/-- The whole category block (F3Page.py lines 437-446): the diagnostic loop,
then `fp.Tags.add(found)` — note the *unstripped* `found` list is added. -/
def categoryBlock (fp : F3Page) (found : List String) : Except PyErr F3Page :=
  if found.length > 0 then
    match categoryChecks fp found with
    | .error e => .error e
    | .ok _ =>
      match fp.Tags.addMany found with
      | .error e => .error e
      | .ok tags => .ok { fp with Tags := tags }
  else .ok fp

/-! ### Table extraction -/

/-- One attempted match of the opening tag
`<tab(\s+head=["]?top["]?)?>` at the current position (F3Page.py line 459).
The attribute part is optional; quotes are individually optional; letter case
is not enforced (spec §4.6). -/
def matchTabOpen (l : List Char) : Option (List Char) :=
  match ciStarts "<tab".toList l with
  | none => none
  | some rest =>
    match rest with
    | [] => none
    | c :: _ =>
      if c = '>' then some rest.tail
      else if isPySpace c then
        match ciStarts "head=".toList (rest.dropWhile isPySpace) with
        | none => none
        | some r3 =>
          let r4 := match r3 with | '"' :: t => t | _ => r3
          match ciStarts "top".toList r4 with
          | none => none
          | some r5 =>
            let r6 := match r5 with | '"' :: t => t | _ => r5
            match r6 with
            | '>' :: r7 => some r7
            | _ => none
      else none

/-- Model of `SearchAndExtractBounded` for the table tags: find the first opening tag,
then the first closing `</tab>` after it; return the prefix before the opening
tag, the bounded content, and the text after the closing tag. -/
def findTabAux : Nat → List Char → Option (List Char × List Char × List Char)
  | _, [] => none
  | 0, _ => none
  | fuel+1, c :: cs =>
    match matchTabOpen (c :: cs) with
    | some rest =>
      match splitAtFirstCI "</tab>".toList rest with
      | none => none
      | some (content, after) => some ([], content, after)
    | none =>
      match findTabAux fuel cs with
      | none => none
      | some (pre, content, after) => some (c :: pre, content, after)

/-- The body of the `for line in tab` loop (F3Page.py lines 470-477): blank
lines are skipped; the first non-blank line creates the table with its headers;
later non-blank lines are appended as rows. -/
def tabLine (f3t : Option F3Table) (line : List Char) : Option F3Table :=
  if line.isEmpty then f3t
  else
    match f3t with
    | none => some { Headers := some ((pySplit "||".toList line).map (fun cell => String.mk (pyTrim cell))) }
    | some t => some (t.AppendRow ((pySplit "||".toList line).map (fun cell => String.mk (pyTrim cell))))

/-- Processing of one bounded table region (F3Page.py lines 461-478): split on
newlines; with at most one line nothing is appended (`none`); otherwise the
line loop runs and the built table — which is Python `None` when every line
was blank — is appended (`some t`). -/
def processTabRegion (content : List Char) : Option (Option F3Table) :=
  let tab := pySplit "\n".toList content
  if tab.length > 1 then some (tab.foldl tabLine none) else none

/-- The `while tab is not None` loop (F3Page.py lines 460-479), collecting
appended tables in order. -/
def tableLoop : Nat → List Char → List (Option F3Table) → List (Option F3Table)
  | 0, _, acc => acc
  | fuel+1, src, acc =>
    match findTabAux src.length src with
    | none => acc
    | some (pre, content, after) =>
      let acc :=
        match processTabRegion content with
        | none => acc
        | some t => acc ++ [t]
      tableLoop fuel (pre ++ after) acc

/-! ### Link extraction -/

/-- A character allowed inside a link interior: not `|`, `[` or `]`
(the negated character class does match newlines). -/
def linkChar (c : Char) : Bool :=
  !(c = '|' || c = '[' || c = ']')

/-- One attempted match of `\[\[([^\|\[\]]+?)\]\]` at the current position
(F3Page.py line 489). -/
def matchSimpleLinkAt (l : List Char) : Option (List Char × List Char) :=
  match csStarts "[[".toList l with
  | none => none
  | some rest =>
    let run := rest.takeWhile linkChar
    if run.isEmpty then none
    else
      match csStarts "]]".toList (rest.drop run.length) with
      | none => none
      | some after => some (run, after)

/-- The simple-link pass: captures and remaining text. -/
def stripSimpleLinks (s : String) : List (List Char) × String :=
  let r := scanAux matchSimpleLinkAt s.toList.length s.toList
  (r.1, String.mk r.2)

/-- One attempted match of `\[\[([^\|\[\]]+?\|[^\|\[\]]+?)\]\]` at the current
position (F3Page.py line 495); the capture `a|b` is immediately re-split on the
`|` by the loop body, so the two halves are returned directly (the
more-than-two-components and the no-`|` branches of the loop are unreachable
for captures of this pattern). -/
def matchPipeLinkAt (l : List Char) : Option ((List Char × List Char) × List Char) :=
  match csStarts "[[".toList l with
  | none => none
  | some rest =>
    let a := rest.takeWhile linkChar
    if a.isEmpty then none
    else
      match rest.drop a.length with
      | '|' :: rest2 =>
        let b := rest2.takeWhile linkChar
        if b.isEmpty then none
        else
          match csStarts "]]".toList (rest2.drop b.length) with
          | none => none
          | some after => some ((a, b), after)
      | _ => none

/-- The piped-link pass: captures and remaining text. -/
def stripPipeLinks (s : String) : List (List Char × List Char) × String :=
  let r := scanAux matchPipeLinkAt s.toList.length s.toList
  (r.1, String.mk r.2)

/-- Insertion into the `links` set (F3Page.py line 486): Python `set.add` with
the field-tuple `__eq__`/`__hash__` of `F3Reference`, modelled as
insert-if-absent. -/
def listInsertRef (l : List F3Reference) (r : F3Reference) : List F3Reference :=
  if r ∈ l then l else l ++ [r]

/-! ### The assembled digestion -/

/-- The passes before the category block (F3Page.py lines 423-435):
display-title strip, then redirect detection. -/
structure MidState where
  fp : F3Page
  isredirect : Bool
  found : List String
  src : String

/-- Display-title, redirect and category scanning (F3Page.py lines 423-437). -/
def preCategory (fp : F3Page) (source : String) (c : Collab) : MidState :=
  let d := stripDisplaytitle source
  let fp := match d.1 with
    | some t => { fp with DisplayTitle := some t }
    | none => fp
  let r := stripRedirect d.2
  let fp := match r.1 with
    | some t => { fp with Redirect := some (c.WikiRedirectToPagename t) }
    | none => fp
  let cats := stripCategories r.2
  { fp := fp, isredirect := r.1.isSome, found := cats.1, src := cats.2 }

/-- The reference built for one simple-link capture (F3Page.py line 491). -/
def mkSimpleRef (c : Collab) (pagefname : String) (t : List Char) : F3Reference :=
  { LinkWikiName := c.WikiUrlnameToWikiPagename (String.mk (pyTrim t)),
    LinkDisplayText := String.mk (pyTrim t),
    ParentPageName := pagefname, FanacURL := "" }

/-- The reference built for one piped-link capture (F3Page.py line 503). -/
def mkPipeRef (c : Collab) (pagefname : String) (ab : List Char × List Char) : F3Reference :=
  { LinkWikiName := c.WikiUrlnameToWikiPagename (String.mk (pyTrim ab.1)),
    LinkDisplayText := String.mk (pyTrim ab.2),
    ParentPageName := pagefname, FanacURL := "" }

/-- The passes after the category block when no redirect was found (F3Page.py
lines 452-507): HTML-block stripping, table extraction (on the variable `src`,
leaving `source` untouched for the link passes, as in the Python), simple links,
piped links, and materialisation of the reference set. -/
def postCategory (fp : F3Page) (source : String) (pagefname : String) (c : Collab) : F3Page :=
  let source := stripHtml source
  let fp := { fp with Table := tableLoop source.toList.length source.toList fp.Table }
  let r1 := stripSimpleLinks source
  let links := r1.1.foldl (fun acc t => listInsertRef acc (mkSimpleRef c pagefname t)) []
  let r2 := stripPipeLinks r1.2
  let links := r2.1.foldl (fun acc ab => listInsertRef acc (mkPipeRef c pagefname ab)) links
  { fp with OutgoingReferences := some links }

/-- The body of `DigestPage` from the end of the loads onward (F3Page.py lines
382-508). -/
def processPage (children : List XmlChild) (source : String) (pagefname : String)
    (c : Collab) : Except PyErr (Option F3Page) :=
  match applyChildren children {} with
  | .error e => .error e
  | .ok fp0 =>
    let fp1 := { fp0 with WindowsFilename := some pagefname }
    if source.length = 0 then .ok none
    else
      let fp2 := { fp1 with Source := some source }
      let st := preCategory fp2 source c
      match categoryBlock st.fp st.found with
      | .error e => .error e
      | .ok fp3 =>
        if st.isredirect then .ok (some fp3)
        else .ok (some (postCategory fp3 st.src pagefname c))

/-- Function `DigestPage` (F3Page.py lines 355-508).  The two `os.path.isfile` guards
return `None` for a missing file; then the XML future's `.result()` re-raises
any `ET.parse` error, then the source future's `.result()` re-raises any
decode error; then the body runs. -/
def DigestPage (files : PageFiles) (pagefname : String) (c : Collab) :
    Except PyErr (Option F3Page) :=
  match files.txt with
  | none => .ok none
  | some txtres =>
    match files.xml with
    | none => .ok none
    | some xmlres =>
      match xmlres with
      | .error e => .error e
      | .ok children =>
        match txtres with
        | .error e => .error e
        | .ok source => processPage children source pagefname c

/-! ### The load phase as an event trace (for the concurrency claim) -/

/-- A fork (submit) or join (result) event for one of the two loads;
`true` stands for the XML descriptor load, `false` for the source read. -/
inductive LoadStep where
  | fork (xml : Bool)
  | join (xml : Bool)
deriving DecidableEq, Repr

/-- The load phase of `DigestPage` (F3Page.py lines 377-379), as the sequence
of executor events the two statements perform:
`executor.submit(LoadXML, ...).result()` forks the XML load and immediately
joins it, and only then is `executor.submit(LoadSource, ...).result()`
executed. -/
def digestLoadTrace : List LoadStep := [.fork true, .join true, .fork false, .join false]

/-- Whether a step is a fork. -/
def LoadStep.isFork : LoadStep → Bool
  | .fork _ => true
  | .join _ => false

/-- Every fork in the trace happens before every join. -/
def forksPrecedeJoins : List LoadStep → Bool
  | [] => true
  | .fork _ :: r => forksPrecedeJoins r
  | .join _ :: r => r.all (fun s => !s.isFork)

/-- Predicate for "both loads are forked before either is joined": the trace forks twice and
all forks precede all joins. -/
def concurrentBothLoads (tr : List LoadStep) : Bool :=
  ((tr.filter LoadStep.isFork).length == 2) && forksPrecedeJoins tr

/-! ### The locale extractor described by the specification -/

/-- A character allowed in a locale VALUE per spec §4.4: letters, whitespace,
periods, commas, hyphens. -/
def isLocaleValChar (c : Char) : Bool :=
  c.isAlpha || isPySpace c || c = '.' || c = ',' || c = '-'

/-- One attempted match of the spec's locale parameter at the current
position. -/
def matchLocaleAt (l : List Char) : Option (String × List Char) :=
  match ciStarts "|locale=".toList l with
  | none => none
  | some rest =>
    let v := rest.takeWhile isLocaleValChar
    match rest.drop v.length with
    | c :: r => if c = '|' ∨ c = '\x7d' then some (String.mk v, r) else none
    | [] => none

/-- Modelled from the spec: the locale extractor of §4.4, which is absent from
the source under verification — a template-style parameter `|locale=VALUE`
(case-insensitive key, VALUE restricted to letters, whitespace, periods,
commas, hyphens, running up to the next `|` or `\x7d`), first match only. -/
def localeFirstSpec (s : String) : Option String :=
  (localeFirstSpecAux s.toList.length s.toList : Option String)
where
  localeFirstSpecAux : Nat → List Char → Option String
    | _, [] => none
    | 0, _ => none
    | fuel+1, c :: cs =>
      match matchLocaleAt (c :: cs) with
      | some (v, _) => some v
      | none => localeFirstSpecAux fuel cs

/-- A page record with its raw `Source` field blanked, used to compare what
the extraction passes recorded apart from the verbatim copy of the input. -/
def eraseSource (fp : F3Page) : F3Page :=
  { fp with Source := none }

/-! ### Projection helpers for concrete evaluations -/

/-- The normalized tag list of a digestion result. -/
def digestTags (files : PageFiles) (pagefname : String) (c : Collab) :
    Except PyErr (Option (List String)) :=
  (DigestPage files pagefname c).map (Option.map (fun fp => fp.Tags.set))

/-- The table list of a digestion result. -/
def digestTables (files : PageFiles) (pagefname : String) (c : Collab) :
    Except PyErr (Option (List (Option F3Table))) :=
  (DigestPage files pagefname c).map (Option.map (fun fp => fp.Table))

/-- The outgoing-reference list of a digestion result. -/
def digestRefs (files : PageFiles) (pagefname : String) (c : Collab) :
    Except PyErr (Option (Option (List F3Reference))) :=
  (DigestPage files pagefname c).map (Option.map (fun fp => fp.OutgoingReferences))

/-! ### Concrete inputs and expected outputs used in the theorems below -/

/-- A descriptor with just a `title` element. -/
def xmlTitleP : List XmlChild := [{ tag := "title", text := some "P" }]

/-- A redirect page that also carries a later link. -/
def fRedirect : PageFiles :=
  { txt := some (.ok "#redirect [[Target]]\n[[Other]]"), xml := some (.ok xmlTitleP) }

/-- A page whose only markup is a category with an explicit sort key. -/
def fCatSort : PageFiles :=
  { txt := some (.ok "[[Category:Fan|F]]"), xml := some (.ok xmlTitleP) }

/-- A page whose table region holds a header line and no data rows. -/
def fTabHeaderOnly : PageFiles :=
  { txt := some (.ok "<tab>\nA||B\n</tab>"), xml := some (.ok xmlTitleP) }

/-- A page whose table region holds only blank lines. -/
def fTabBlank : PageFiles :=
  { txt := some (.ok "<tab>\n\n</tab>"), xml := some (.ok xmlTitleP) }

/-- A page with two syntactically identical simple links. -/
def fTwoLinks : PageFiles :=
  { txt := some (.ok "[[Target]] and [[Target]]"), xml := some (.ok xmlTitleP) }

/-- A present source file next to a descriptor whose parse raises. -/
def fBadXml : PageFiles := { txt := some (.ok "x"), xml := some (.error .parseError) }

/-- A second such pair, with an undecodable source. -/
def fBadXml2 : PageFiles := { txt := some (.ok "y"), xml := some (.error .decodeError) }

/-- A well-formed descriptor with no `title` element next to a source whose
category is absent from the (empty) metadata: the diagnostic concatenation
`"In page '"+fp.Name+..."` then raises `TypeError`. -/
def fNoTitleCat : PageFiles := { txt := some (.ok "[[Category:Fan]]"), xml := some (.ok []) }

/-- A source consisting of a single template carrying a locale parameter. -/
def srcLocA : String := "\x7b\x7bcon|locale=Boston\x7d\x7d"

/-- The same template with a different locale value. -/
def srcLocB : String := "\x7b\x7bcon|locale=Texas\x7d\x7d"

def fLocA : PageFiles := { txt := some (.ok srcLocA), xml := some (.ok xmlTitleP) }

def fLocB : PageFiles := { txt := some (.ok srcLocB), xml := some (.ok xmlTitleP) }

/-- The single reference produced by `fTwoLinks` (under the identity
collaborator). -/
def refTarget : F3Reference :=
  { LinkWikiName := "Target", LinkDisplayText := "Target", ParentPageName := "p", FanacURL := "" }

/-- The record digested from `fTwoLinks`. -/
def fpTwoLinks : F3Page :=
  { Name := some "P", WindowsFilename := some "p",
    Source := some "[[Target]] and [[Target]]", OutgoingReferences := some [refTarget] }

/-- The record digested from `fRedirect`. -/
def fpRedirect : F3Page :=
  { Name := some "P", Redirect := some "Target", WindowsFilename := some "p",
    Source := some "#redirect [[Target]]\n[[Other]]" }

/-- The record digested from `fLocA`: no field of it other than the verbatim
`Source` depends on the locale parameter. -/
def fpLocA : F3Page :=
  { Name := some "P", WindowsFilename := some "p", Source := some srcLocA,
    OutgoingReferences := some [] }

/-! ### Supporting lemmas -/

lemma char_toNat_ofNat (n : Nat) (h : n < 55296) : (Char.ofNat n).toNat = n := by
  have hv : Nat.isValidChar n := Or.inl h
  simp [Char.ofNat, Char.ofNatAux, hv, Char.toNat, UInt32.toNat, BitVec.toNat_ofNatLt]

lemma upperChar_idem (c : Char) : upperChar (upperChar c) = upperChar c := by
  unfold upperChar
  by_cases h : 97 ≤ c.toNat ∧ c.toNat ≤ 122
  · rw [if_pos h]
    have hval : (Char.ofNat (c.toNat - 32)).toNat = c.toNat - 32 :=
      char_toNat_ofNat (c.toNat - 32) (by omega)
    rw [if_neg]
    rw [hval]
    omega
  · rw [if_neg h, if_neg h]

lemma underscoreSpace_upperChar_fix (c : Char) :
    upperChar (underscoreSpace (upperChar c)) = underscoreSpace (upperChar c) := by
  unfold underscoreSpace
  by_cases h : upperChar c = '_'
  · rw [if_pos h]
    decide
  · rw [if_neg h]
    exact upperChar_idem c

lemma underscoreSpace_idem (c : Char) :
    underscoreSpace (underscoreSpace c) = underscoreSpace c := by
  unfold underscoreSpace
  by_cases h : c = '_'
  · rw [if_pos h]
    decide
  · rw [if_neg h, if_neg h]

/-- Claim C6: the tag-normalization function is idempotent: for every string,
normalizing the result of a (successful) normalization returns it unchanged;
on the empty string `normalize` raises, and so does the composite. -/
theorem normalize_idem (val : String) :
    (normalize val).bind normalize = normalize val := by
  cases val with
  | mk data =>
    match data with
    | [] => rfl
    | [c] =>
      show normalize (String.mk [upperChar c]) = some (String.mk [upperChar c])
      unfold normalize
      simp [upperChar_idem]
    | c :: d :: cs =>
      show normalize (fixTable (String.mk ((upperChar c :: d :: cs).map underscoreSpace)))
          = some (fixTable (String.mk ((upperChar c :: d :: cs).map underscoreSpace)))
      simp only [List.map_cons]
      unfold fixTable
      split
      · decide
      · split
        · decide
        · split
          · decide
          · split
            · decide
            · split
              · decide
              · split
                · decide
                · -- the string is unchanged by the lookup table
                  rename_i h1 h2 h3 h4 h5 h6
                  show normalize (String.mk (underscoreSpace (upperChar c) :: underscoreSpace d :: List.map underscoreSpace cs))
                      = some (String.mk (underscoreSpace (upperChar c) :: underscoreSpace d :: List.map underscoreSpace cs))
                  unfold normalize
                  show some (fixTable (String.mk ((upperChar (underscoreSpace (upperChar c)) :: underscoreSpace d :: List.map underscoreSpace cs).map underscoreSpace)))
                      = some (String.mk (underscoreSpace (upperChar c) :: underscoreSpace d :: List.map underscoreSpace cs))
                  have hl : (upperChar (underscoreSpace (upperChar c)) :: underscoreSpace d :: List.map underscoreSpace cs).map underscoreSpace
                      = underscoreSpace (upperChar c) :: underscoreSpace d :: List.map underscoreSpace cs := by
                    simp [underscoreSpace_upperChar_fix, underscoreSpace_idem, List.map_map, Function.comp]
                  rw [hl]
                  unfold fixTable
                  rw [if_neg h1, if_neg h2, if_neg h3, if_neg h4, if_neg h5, if_neg h6]


lemma scanAux_forall {α : Type} (m : List Char → Option (α × List Char)) (P : α → Prop)
    (hm : ∀ l a r, m l = some (a, r) → P a) :
    ∀ fuel l, ∀ a ∈ (scanAux m fuel l).1, P a := by
  intro fuel
  induction fuel with
  | zero =>
    intro l a ha
    cases l <;> simp [scanAux] at ha
  | succ n ih =>
    intro l a ha
    cases l with
    | nil => simp [scanAux] at ha
    | cons c cs =>
      rw [scanAux] at ha
      cases hm2 : m (c :: cs) with
      | none =>
        rw [hm2] at ha
        exact ih cs a ha
      | some p =>
        obtain ⟨b, rest⟩ := p
        rw [hm2] at ha
        dsimp only at ha
        rcases List.mem_cons.mp ha with ha | ha
        · exact ha ▸ hm (c :: cs) b rest hm2
        · exact ih rest a ha

lemma matchDescCatAt_ne (l : List Char) (a : String) (r : List Char)
    (h : matchDescCatAt l = some (a, r)) : a ≠ "" := by
  unfold matchDescCatAt at h
  cases h1 : csStarts "Category(\x27Category:".toList l with
  | none => rw [h1] at h; cases h
  | some rest =>
    rw [h1] at h
    dsimp only at h
    cases h2 : splitAtFirst "\x27)".toList rest with
    | none => rw [h2] at h; cases h
    | some p =>
      obtain ⟨seg, after⟩ := p
      rw [h2] at h
      dsimp only at h
      by_cases h3 : (seg.isEmpty || seg.contains '\n') = true
      · rw [if_pos h3] at h; cases h
      · rw [if_neg h3] at h
        injection h with h
        injection h with ha hr
        intro hcon
        apply h3
        have hseg : seg = [] := by
          have := congrArg String.data (ha.trans hcon)
          simpa using this
        simp [hseg]

lemma normalize_isSome (v : String) (h : v ≠ "") : ∃ n, normalize v = some n := by
  cases v with
  | mk data =>
    match data with
    | [] => exact absurd rfl h
    | [c] => exact ⟨_, rfl⟩
    | c :: d :: cs => exact ⟨_, rfl⟩

lemma normalizeAll_ok (l : List String) (h : ∀ v ∈ l, v ≠ "") :
    ∃ ns, normalizeAll l = .ok ns := by
  induction l with
  | nil => exact ⟨[], rfl⟩
  | cons v rest ih =>
    obtain ⟨n, hn⟩ := normalize_isSome v (h v (by simp))
    obtain ⟨ns, hns⟩ := ih (fun x hx => h x (by simp [hx]))
    exact ⟨n :: ns, by rw [normalizeAll, hn, hns]⟩

lemma addMany_ok (ts : TagSet) (vals : List String) (h : ∀ v ∈ vals, v ≠ "") :
    ∃ ts', ts.addMany vals = .ok ts' := by
  unfold TagSet.addMany
  by_cases hn : ts.normalized = true
  · rw [if_pos hn]
    obtain ⟨ns, hns⟩ := normalizeAll_ok vals h
    rw [hns]
    exact ⟨_, rfl⟩
  · rw [if_neg hn]
    exact ⟨_, rfl⟩

@[simp] lemma chTitle_refs (ch : XmlChild) (fp : F3Page) :
    (chTitle ch fp).OutgoingReferences = fp.OutgoingReferences := by
  unfold chTitle; split <;> rfl

@[simp] lemma chTitle_table (ch : XmlChild) (fp : F3Page) :
    (chTitle ch fp).Table = fp.Table := by
  unfold chTitle; split <;> rfl

@[simp] lemma chFilename_refs (ch : XmlChild) (fp : F3Page) :
    (chFilename ch fp).OutgoingReferences = fp.OutgoingReferences := by
  unfold chFilename; split <;> rfl

@[simp] lemma chFilename_table (ch : XmlChild) (fp : F3Page) :
    (chFilename ch fp).Table = fp.Table := by
  unfold chFilename; split <;> rfl

@[simp] lemma chUrlname_refs (ch : XmlChild) (fp : F3Page) :
    (chUrlname ch fp).OutgoingReferences = fp.OutgoingReferences := by
  unfold chUrlname; split <;> rfl

@[simp] lemma chUrlname_table (ch : XmlChild) (fp : F3Page) :
    (chUrlname ch fp).Table = fp.Table := by
  unfold chUrlname; split <;> rfl

@[simp] lemma chIsredirectpage_refs (ch : XmlChild) (fp : F3Page) :
    (chIsredirectpage ch fp).OutgoingReferences = fp.OutgoingReferences := by
  unfold chIsredirectpage; split <;> rfl

@[simp] lemma chIsredirectpage_table (ch : XmlChild) (fp : F3Page) :
    (chIsredirectpage ch fp).Table = fp.Table := by
  unfold chIsredirectpage; split <;> rfl

@[simp] lemma chNumrevisions_refs (ch : XmlChild) (fp : F3Page) :
    (chNumrevisions ch fp).OutgoingReferences = fp.OutgoingReferences := by
  unfold chNumrevisions; split <;> rfl

@[simp] lemma chNumrevisions_table (ch : XmlChild) (fp : F3Page) :
    (chNumrevisions ch fp).Table = fp.Table := by
  unfold chNumrevisions; split <;> rfl

@[simp] lemma chPageid_refs (ch : XmlChild) (fp : F3Page) :
    (chPageid ch fp).OutgoingReferences = fp.OutgoingReferences := by
  unfold chPageid; split <;> rfl

@[simp] lemma chPageid_table (ch : XmlChild) (fp : F3Page) :
    (chPageid ch fp).Table = fp.Table := by
  unfold chPageid; split <;> rfl

@[simp] lemma chRevid_refs (ch : XmlChild) (fp : F3Page) :
    (chRevid ch fp).OutgoingReferences = fp.OutgoingReferences := by
  unfold chRevid; split <;> rfl

@[simp] lemma chRevid_table (ch : XmlChild) (fp : F3Page) :
    (chRevid ch fp).Table = fp.Table := by
  unfold chRevid; split <;> rfl

@[simp] lemma chEdittime_refs (ch : XmlChild) (fp : F3Page) :
    (chEdittime ch fp).OutgoingReferences = fp.OutgoingReferences := by
  unfold chEdittime; split <;> rfl

@[simp] lemma chEdittime_table (ch : XmlChild) (fp : F3Page) :
    (chEdittime ch fp).Table = fp.Table := by
  unfold chEdittime; split <;> rfl

@[simp] lemma chPermalink_refs (ch : XmlChild) (fp : F3Page) :
    (chPermalink ch fp).OutgoingReferences = fp.OutgoingReferences := by
  unfold chPermalink; split <;> rfl

@[simp] lemma chPermalink_table (ch : XmlChild) (fp : F3Page) :
    (chPermalink ch fp).Table = fp.Table := by
  unfold chPermalink; split <;> rfl

@[simp] lemma chTimestamp_refs (ch : XmlChild) (fp : F3Page) :
    (chTimestamp ch fp).OutgoingReferences = fp.OutgoingReferences := by
  unfold chTimestamp; split <;> rfl

@[simp] lemma chTimestamp_table (ch : XmlChild) (fp : F3Page) :
    (chTimestamp ch fp).Table = fp.Table := by
  unfold chTimestamp; split <;> rfl

@[simp] lemma chUser_refs (ch : XmlChild) (fp : F3Page) :
    (chUser ch fp).OutgoingReferences = fp.OutgoingReferences := by
  unfold chUser; split <;> rfl

@[simp] lemma chUser_table (ch : XmlChild) (fp : F3Page) :
    (chUser ch fp).Table = fp.Table := by
  unfold chUser; split <;> rfl

lemma chCategories_spec (ch : XmlChild) (fp : F3Page) :
    ∃ fp', chCategories ch fp = .ok fp' ∧
      fp'.OutgoingReferences = fp.OutgoingReferences ∧ fp'.Table = fp.Table := by
  unfold chCategories
  by_cases htag : ch.tag = "categories"
  · rw [if_pos htag]
    cases htext : ch.text with
    | none => exact ⟨fp, rfl, rfl, rfl⟩
    | some t =>
      dsimp only
      by_cases hlen : t.length > 0
      · rw [if_pos hlen]
        have hne : ∀ v ∈ findDescriptorCats t, v ≠ "" := by
          intro v hv
          exact scanAux_forall matchDescCatAt (fun a => a ≠ "")
            (fun l a r h => matchDescCatAt_ne l a r h) t.toList.length t.toList v hv
        obtain ⟨ts', hts⟩ := addMany_ok fp.Tags (findDescriptorCats t) hne
        rw [hts]
        exact ⟨_, rfl, rfl, rfl⟩
      · rw [if_neg hlen]
        exact ⟨fp, rfl, rfl, rfl⟩
  · rw [if_neg htag]
    exact ⟨fp, rfl, rfl, rfl⟩

lemma applyChild_spec (fp : F3Page) (ch : XmlChild) :
    ∃ fp', applyChild fp ch = .ok fp' ∧
      fp'.OutgoingReferences = fp.OutgoingReferences ∧ fp'.Table = fp.Table := by
  unfold applyChild
  obtain ⟨fpc, hc, hr, ht⟩ := chCategories_spec ch (chPermalink ch (chEdittime ch (chRevid ch
    (chPageid ch (chNumrevisions ch (chIsredirectpage ch (chUrlname ch (chFilename ch (chTitle ch fp)))))))))
  rw [hc]
  refine ⟨_, rfl, ?_, ?_⟩
  · simp [hr]
  · simp [ht]

lemma applyChildren_spec (cs : List XmlChild) :
    ∀ fp, ∃ fp', applyChildren cs fp = .ok fp' ∧
      fp'.OutgoingReferences = fp.OutgoingReferences ∧ fp'.Table = fp.Table := by
  induction cs with
  | nil => exact fun fp => ⟨fp, rfl, rfl, rfl⟩
  | cons ch rest ih =>
    intro fp
    obtain ⟨fp1, h1, hr1, ht1⟩ := applyChild_spec fp ch
    obtain ⟨fp2, h2, hr2, ht2⟩ := ih fp1
    refine ⟨fp2, ?_, hr2.trans hr1, ht2.trans ht1⟩
    rw [applyChildren, h1]
    exact h2

@[simp] lemma preCategory_isredirect (fp : F3Page) (s : String) (c : Collab) :
    (preCategory fp s c).isredirect = (stripRedirect (stripDisplaytitle s).2).1.isSome := rfl

@[simp] lemma preCategory_found (fp : F3Page) (s : String) (c : Collab) :
    (preCategory fp s c).found = (stripCategories (stripRedirect (stripDisplaytitle s).2).2).1 := rfl

@[simp] lemma preCategory_src (fp : F3Page) (s : String) (c : Collab) :
    (preCategory fp s c).src = (stripCategories (stripRedirect (stripDisplaytitle s).2).2).2 := rfl

lemma preCategory_fp_refs (fp : F3Page) (s : String) (c : Collab) :
    (preCategory fp s c).fp.OutgoingReferences = fp.OutgoingReferences := by
  unfold preCategory
  dsimp only
  split <;> split <;> rfl

lemma preCategory_fp_table (fp : F3Page) (s : String) (c : Collab) :
    (preCategory fp s c).fp.Table = fp.Table := by
  unfold preCategory
  dsimp only
  split <;> split <;> rfl

lemma preCategory_fp_redirect_of (fp : F3Page) (s : String) (c : Collab) (t : String)
    (h : (stripRedirect (stripDisplaytitle s).2).1 = some t) :
    (preCategory fp s c).fp.Redirect = some (c.WikiRedirectToPagename t) := by
  unfold preCategory
  dsimp only
  rw [h]

lemma categoryBlock_pres (fp : F3Page) (found : List String) (fp' : F3Page)
    (h : categoryBlock fp found = .ok fp') :
    fp'.OutgoingReferences = fp.OutgoingReferences ∧ fp'.Table = fp.Table ∧
      fp'.Redirect = fp.Redirect := by
  unfold categoryBlock at h
  split at h
  · cases h1 : categoryChecks fp found with
    | error e => rw [h1] at h; cases h
    | ok u =>
      rw [h1] at h
      cases h2 : fp.Tags.addMany found with
      | error e => rw [h2] at h; cases h
      | ok tags =>
        rw [h2] at h
        injection h with h
        subst h
        exact ⟨rfl, rfl, rfl⟩
  · injection h with h
    subst h
    exact ⟨rfl, rfl, rfl⟩

lemma string_eq_empty_of_length (s : String) (h : s.length = 0) : s = "" := by
  cases s with
  | mk data =>
    have : data = [] := List.length_eq_zero.mp h
    rw [this]

lemma processPage_empty_src (children : List XmlChild) (pf : String) (c : Collab) :
    processPage children "" pf c = .ok none := by
  unfold processPage
  obtain ⟨fp0, hac, _, _⟩ := applyChildren_spec children {}
  rw [hac]
  rfl

lemma processPage_not_none (children : List XmlChild) (source : String) (pf : String)
    (c : Collab) (hs : source ≠ "") : processPage children source pf c ≠ .ok none := by
  unfold processPage
  cases hac : applyChildren children {} with
  | error e => simp
  | ok fp0 =>
    have hlen : ¬ source.length = 0 := fun h => hs (string_eq_empty_of_length source h)
    dsimp only
    rw [if_neg hlen]
    split
    · simp
    · split <;> simp

lemma listInsertRef_nodup (l : List F3Reference) (r : F3Reference) (h : l.Nodup) :
    (listInsertRef l r).Nodup := by
  unfold listInsertRef
  split
  · exact h
  · rename_i hni
    rw [List.nodup_append]
    exact ⟨h, List.nodup_singleton r, by simpa using hni⟩

lemma foldl_insertRef_nodup {β : Type} (g : β → F3Reference) :
    ∀ (xs : List β) (init : List F3Reference), init.Nodup →
      (xs.foldl (fun acc b => listInsertRef acc (g b)) init).Nodup := by
  intro xs
  induction xs with
  | nil => exact fun init h => h
  | cons x rest ih =>
    intro init h
    exact ih (listInsertRef init (g x)) (listInsertRef_nodup init (g x) h)

lemma postCategory_refs_nodup (fp : F3Page) (source : String) (pf : String) (c : Collab)
    (l : List F3Reference)
    (h : (postCategory fp source pf c).OutgoingReferences = some l) : l.Nodup := by
  unfold postCategory at h
  dsimp only at h
  injection h with h
  subst h
  apply foldl_insertRef_nodup (mkPipeRef c pf)
  apply foldl_insertRef_nodup (mkSimpleRef c pf)
  exact List.nodup_nil

lemma foldl_tabLine_blank : ∀ (ls : List (List Char)), (∀ l ∈ ls, l = []) →
    ls.foldl tabLine none = none := by
  intro ls
  induction ls with
  | nil => exact fun _ => rfl
  | cons x rest ih =>
    intro h
    have hx : x = [] := h x (by simp)
    have : tabLine none x = none := by rw [hx]; rfl
    rw [List.foldl_cons, this]
    exact ih (fun y hy => h y (by simp [hy]))

/-! ### The claims -/

/-- Claim C1 (counterexample): `DigestPage` does not return an absent result on
a structurally malformed descriptor — the parse error propagates to the caller
(first conjunct); it can also raise `TypeError` out of the category-diagnostic
logging when the descriptor supplied no title (second conjunct), so absence is
not the sole failure signal. -/
theorem digest_malformed_descriptor_raises :
    DigestPage fBadXml "p" cid = .error .parseError ∧
    DigestPage fNoTitleCat "p" cid = .error .typeError :=
  ⟨rfl, rfl⟩

/-- Claim C1 (amended): `DigestPage` returns an absent result exactly when an
input file is missing or when both loads succeed and the decoded source text is
empty; a structurally malformed descriptor next to a present source file
instead raises: the parse exception propagates to the caller. -/
theorem digest_absent_iff_and_parse_raises :
    ∀ (files : PageFiles) (pf : String) (c : Collab),
      (DigestPage files pf c = .ok none ↔
        files.txt = none ∨ files.xml = none ∨
          ∃ cs, files.xml = some (.ok cs) ∧ files.txt = some (.ok "")) ∧
      (∀ e r, files.txt = some r → files.xml = some (.error e) →
        DigestPage files pf c = .error e) := by
  intro files pf c
  obtain ⟨txt, xml⟩ := files
  constructor
  · constructor
    · intro h
      cases txt with
      | none => exact Or.inl rfl
      | some r =>
        cases xml with
        | none => exact Or.inr (Or.inl rfl)
        | some x =>
          cases x with
          | error e => simp [DigestPage] at h
          | ok cs =>
            cases r with
            | error e => simp [DigestPage] at h
            | ok s =>
              by_cases hs : s = ""
              · subst hs
                exact Or.inr (Or.inr ⟨cs, rfl, rfl⟩)
              · exact absurd h (processPage_not_none cs s pf c hs)
    · rintro (h | h | ⟨cs, hx, ht⟩)
      · cases h
        rfl
      · cases h
        cases txt <;> rfl
      · cases hx
        cases ht
        exact processPage_empty_src cs pf c
  · intro e r ht hx
    cases ht
    cases hx
    rfl

/-- Claim C1 (witness for the amended theorem): a present but undecodable pair
with a malformed descriptor raises the parse error. -/
theorem digest_absent_iff_witness :
    DigestPage fBadXml2 "q" cid = .error .decodeError :=
  (digest_absent_iff_and_parse_raises fBadXml2 "q" cid).2 .decodeError (.ok "y") rfl rfl

/-- Claim C2: digesting `"[[Category:Fan|F]]"` inserts the unstripped text
`"Fan|F"` into the page's tag set — the sort key is stripped only for the
diagnostic membership check, not before `fp.Tags.add(found)` — so the tag
`"Fan"` the claim (and the code's own comment) promises is absent. -/
theorem category_sortkey_added_unstripped :
    digestTags fCatSort "p" cid = .ok (some ["Fan|F"]) ∧
    "Fan" ∉ (["Fan|F"] : List String) :=
  ⟨rfl, by decide⟩

/-- Claim C3: a `<tab>` region containing only a header line still contributes
a table — the content `"\nA||B\n"` splits into three lines, passing the
`len(tab) > 1` guard, and the headers-only table (zero rows) is appended,
contrary to the claim and to the code's own `Gotta have a header and at least
one row` comment. -/
theorem table_headeronly_region_retained :
    digestTables fTabHeaderOnly "p" cid
      = .ok (some [some { Headers := some ["A", "B"], Rows := none, Ftype := none }]) :=
  rfl

/-- Claim C4: whenever the redirect pattern matches the (display-title
stripped) source, any record `DigestPage` returns carries the canonicalized
capture as its redirect target, an empty table list, and no outgoing
references — table and link extraction were skipped. -/
theorem redirect_shortcircuit :
    ∀ (files : PageFiles) (pf : String) (c : Collab) (source : String)
      (cs : List XmlChild) (cap : String) (fp : F3Page),
      files.txt = some (.ok source) → files.xml = some (.ok cs) →
      (stripRedirect (stripDisplaytitle source).2).1 = some cap →
      DigestPage files pf c = .ok (some fp) →
      fp.Redirect = some (c.WikiRedirectToPagename cap) ∧ fp.Table = [] ∧
        fp.OutgoingReferences = none := by
  intro files pf c source cs cap fp ht hx hcap hd
  obtain ⟨txt, xml⟩ := files
  cases ht
  cases hx
  have hd' : processPage cs source pf c = .ok (some fp) := hd
  unfold processPage at hd'
  obtain ⟨fp0, hac, hr0, ht0⟩ := applyChildren_spec cs {}
  rw [hac] at hd'
  dsimp only at hd'
  by_cases hlen : source.length = 0
  · rw [if_pos hlen] at hd'
    exact absurd hd' (by simp)
  · rw [if_neg hlen] at hd'
    split at hd'
    · exact absurd hd' (by simp)
    · rename_i fp3 heq
      split at hd'
      · simp only [Except.ok.injEq, Option.some.injEq] at hd'
        subst hd'
        have hpres := categoryBlock_pres _ _ _ heq
        refine ⟨?_, ?_, ?_⟩
        · rw [hpres.2.2]
          exact preCategory_fp_redirect_of _ source c cap hcap
        · rw [hpres.2.1, preCategory_fp_table]
          dsimp only
          rw [ht0]
        · rw [hpres.1, preCategory_fp_refs]
          dsimp only
          rw [hr0]
      · rename_i hir
        rw [preCategory_isredirect, hcap] at hir
        simp at hir

/-- Claim C4 (witness): the concrete redirect page digests to a record with
redirect target `"Target"`, no tables and no outgoing references. -/
theorem redirect_shortcircuit_witness :
    fpRedirect.Redirect = some "Target" ∧ fpRedirect.Table = [] ∧
      fpRedirect.OutgoingReferences = none :=
  redirect_shortcircuit fRedirect "p" cid "#redirect [[Target]]\n[[Other]]" xmlTitleP
    "Target" fpRedirect rfl rfl rfl rfl

/-- Claim C5: every outgoing-reference list a digestion produces is
duplicate-free under full-field identity (first conjunct), and the page with
two identical `[[Target]]` occurrences yields exactly one reference (second
conjunct). -/
theorem outgoing_refs_deduplicated :
    (∀ (files : PageFiles) (pf : String) (c : Collab) (fp : F3Page) (l : List F3Reference),
      DigestPage files pf c = .ok (some fp) → fp.OutgoingReferences = some l → l.Nodup) ∧
    digestRefs fTwoLinks "p" cid = .ok (some (some [refTarget])) := by
  constructor
  · intro files pf c fp l hd ho
    obtain ⟨txt, xml⟩ := files
    cases txt with
    | none => simp [DigestPage] at hd
    | some r =>
      cases xml with
      | none => simp [DigestPage] at hd
      | some x =>
        cases x with
        | error e => simp [DigestPage] at hd
        | ok cs =>
          cases r with
          | error e => simp [DigestPage] at hd
          | ok s =>
            have hd' : processPage cs s pf c = .ok (some fp) := hd
            unfold processPage at hd'
            obtain ⟨fp0, hac, hr0, ht0⟩ := applyChildren_spec cs {}
            rw [hac] at hd'
            dsimp only at hd'
            by_cases hlen : s.length = 0
            · rw [if_pos hlen] at hd'
              exact absurd hd' (by simp)
            · rw [if_neg hlen] at hd'
              split at hd'
              · exact absurd hd' (by simp)
              · rename_i fp3 heq
                split at hd'
                · simp only [Except.ok.injEq, Option.some.injEq] at hd'
                  subst hd'
                  have hpres := categoryBlock_pres _ _ _ heq
                  rw [hpres.1, preCategory_fp_refs] at ho
                  dsimp only at ho
                  rw [hr0] at ho
                  exact absurd ho (by simp)
                · simp only [Except.ok.injEq, Option.some.injEq] at hd'
                  subst hd'
                  exact postCategory_refs_nodup _ _ _ _ l ho
  · rfl

/-- Claim C5 (witness): the deduplicated reference list of the two-identical-
links page is duplicate-free (and a singleton). -/
theorem outgoing_refs_deduplicated_witness : ([refTarget] : List F3Reference).Nodup :=
  outgoing_refs_deduplicated.1 fTwoLinks "p" cid fpTwoLinks [refTarget] rfl rfl

/-- Claim C7: in a normalized `TagSet`, after adding `v`, the membership test
for any `w` with the same normal form answers true: insertion and membership
apply the same normalization function. -/
theorem tagset_membership_normalized :
    ∀ (ts : TagSet) (v w : String) (ts' : TagSet),
      ts.normalized = true → normalize v = normalize w →
      ts.addOne v = .ok ts' → ts'.containsE w = .ok true := by
  intro ts v w ts' hn hvw hadd
  unfold TagSet.addOne at hadd
  rw [hn] at hadd
  simp only [if_true] at hadd
  cases hv : normalize v with
  | none => rw [hv] at hadd; cases hadd
  | some n =>
    rw [hv] at hadd
    injection hadd with hadd
    subst hadd
    unfold TagSet.containsE
    rw [← hvw, hv]
    have hmem : n ∈ listInsert ts.set n := by
      unfold listInsert
      split
      · assumption
      · simp
    simp [hmem]

/-- Claim C7 (witness): a normalized `TagSet` to which `"us"` was added
reports `"US"` as a member, and vice versa. -/
theorem tagset_membership_normalized_witness :
    TagSet.containsE { set := ["US"], normalized := true } "US" = .ok true ∧
    TagSet.containsE { set := ["US"], normalized := true } "us" = .ok true :=
  ⟨tagset_membership_normalized { set := [], normalized := true } "us" "US"
      { set := ["US"], normalized := true } rfl rfl rfl,
    tagset_membership_normalized { set := [], normalized := true } "US" "us"
      { set := ["US"], normalized := true } rfl rfl rfl⟩

/-- Claim C8 (counterexample): the spec's locale extractor finds first matches
`"Boston"` resp. `"Texas"` in the two sources, yet the digested records differ
in no field other than the verbatim `Source` copy — `DigestPage` records no
locale annotation anywhere (the record has no locale field). -/
theorem locale_never_recorded :
    localeFirstSpec srcLocA = some "Boston" ∧ localeFirstSpec srcLocB = some "Texas" ∧
    (DigestPage fLocA "p" cid).map (Option.map eraseSource)
      = (DigestPage fLocB "p" cid).map (Option.map eraseSource) ∧
    (DigestPage fLocA "p" cid).map (Option.map (fun fp => fp.Source))
      = .ok (some (some srcLocA)) :=
  ⟨rfl, rfl, rfl, rfl⟩

/-- Claim C8 (amended): `DigestPage` performs no locale extraction: a source
carrying a `|locale=VALUE` parameter (which the spec's extractor matches)
digests to a record whose fields record nothing from it — only the verbatim
`Source` copy contains the parameter text. -/
theorem locale_parameter_inert :
    localeFirstSpec srcLocA = some "Boston" ∧ DigestPage fLocA "p" cid = .ok (some fpLocA) :=
  ⟨rfl, rfl⟩

/-- Claim C9: the load phase of `DigestPage` is not concurrent: the event
sequence of lines 377-379 forks the XML load and joins it before the source
load is forked, so it is false that both loads are forked before either is
joined. -/
theorem loads_sequential_not_concurrent :
    concurrentBothLoads digestLoadTrace = false :=
  rfl

/-- Claim C10: a bounded `<tab>` region whose content splits into two or more
lines that are all empty appends Python `None` to the page's table list
(first conjunct: the region processor yields `some none`, an appended null
entry), and digesting the concrete source `"<tab>\n\n</tab>"` returns a table
sequence equal to `[none]` (second conjunct). -/
theorem blank_tab_region_appends_none :
    (∀ content : List Char, (pySplit "\n".toList content).length > 1 →
      (∀ line ∈ pySplit "\n".toList content, line = []) →
      processTabRegion content = some none) ∧
    digestTables fTabBlank "p" cid = .ok (some [none]) := by
  constructor
  · intro content h1 h2
    unfold processTabRegion
    dsimp only
    rw [if_pos h1, foldl_tabLine_blank _ h2]
  · rfl

/-- Claim C10 (witness): the all-blank region `"\n\n"` is processed to an
appended null entry. -/
theorem blank_tab_region_appends_none_witness :
    processTabRegion "\n\n".toList = some none :=
  blank_tab_region_appends_none.1 "\n\n".toList (by decide) (by decide)

end F3
